import Mathlib

/-!
Verification development for the starfinder hacking-encounter sync service.

The embedding below translates the message-validation module
(`src/validation.ts`), the worker admission layer (`src/index.ts`,
the `fetch` handler), and — where the repository only documents it —
the room-coordinator dispatch, into Lean 4.

JavaScript runtime values are modelled by the inductive `JsValue`;
JavaScript numbers by `JsNum` (finite doubles are represented as
rationals, with the special values Infinity, -Infinity and NaN kept
explicit, which suffices for the comparisons the validators make).
-/

namespace Hacking

/-- Model of a JavaScript number: a finite value (as a rational) or one
of the non-finite special values. -/
inductive JsNum where
  | fin : ℚ → JsNum
  | inf : JsNum
  | negInf : JsNum
  | nan : JsNum
deriving DecidableEq, Repr

/-- Model of a JavaScript runtime value as the validators observe it. -/
inductive JsValue where
  | str : String → JsValue
  | num : JsNum → JsValue
  | boolean : Bool → JsValue
  | jnull : JsValue
  | undefined : JsValue
  | arr : List JsValue → JsValue
  | obj : List (String × JsValue) → JsValue

namespace JsValue

/-- Property read `v.key`: on a plain object, the stored value (or
`undefined` when absent); on every other value the validators can reach
after their object checks, `undefined`. -/
def getProp (v : JsValue) (key : String) : JsValue :=
  match v with
  | .obj fields =>
    match fields.lookup key with
    | some x => x
    | none => .undefined
  | _ => .undefined

/-- Update an association list at `key` (replace the first binding, or
append when absent) — the effect of a JavaScript property assignment. -/
def setField (fields : List (String × JsValue)) (key : String) (val : JsValue) :
    List (String × JsValue) :=
  match fields with
  | [] => [(key, val)]
  | (k, v) :: rest =>
    if k = key then (key, val) :: rest else (k, v) :: setField rest key val

/-- Property assignment `v.key = val` on an object; other values are
left unchanged. -/
def setProp (v : JsValue) (key : String) (val : JsValue) : JsValue :=
  match v with
  | .obj fields => .obj (setField fields key val)
  | other => other

/-- The combined guard `!input || typeof input !== 'object'` used by every
payload validator: it passes exactly the truthy values whose `typeof` is
`'object'`, i.e. plain objects and arrays (`null` is falsy, so it is
rejected by the first disjunct even though `typeof null` is `'object'`). -/
def passesObjectCheck (v : JsValue) : Bool :=
  match v with
  | .obj _ => true
  | .arr _ => true
  | _ => false

/-- The `x !== undefined` test. -/
def isUndefined (v : JsValue) : Bool :=
  match v with
  | .undefined => true
  | _ => false

/-- The `x === null` test. -/
def isNull (v : JsValue) : Bool :=
  match v with
  | .jnull => true
  | _ => false

end JsValue

/-- Result type of the payload validators, mirroring
`ValidationResult<T> = {valid:true; value:T} | {valid:false; error:string}`.
An error carries no value at all. -/
inductive VResult (α : Type) where
  | ok : α → VResult α
  | err : String → VResult α
deriving DecidableEq, Repr

/-- The characters removed by the JavaScript trim: whitespace and line
terminators (ASCII blanks, NBSP, BOM, the Unicode space separators and
the line/paragraph separators). -/
def isJsWs (c : Char) : Bool :=
  c.toNat = 0x20 || c.toNat = 0x09 || c.toNat = 0x0a || c.toNat = 0x0b ||
  c.toNat = 0x0c || c.toNat = 0x0d || c.toNat = 0xa0 || c.toNat = 0xfeff ||
  c.toNat = 0x1680 || (0x2000 ≤ c.toNat && c.toNat ≤ 0x200a) ||
  c.toNat = 0x2028 || c.toNat = 0x2029 || c.toNat = 0x202f ||
  c.toNat = 0x205f || c.toNat = 0x3000

/-- `String.prototype.trim`: drop JS whitespace from both ends. -/
def jsTrim (l : List Char) : List Char :=
  ((l.dropWhile isJsWs).reverse.dropWhile isJsWs).reverse

/-- The control characters deleted by the first regex of `sanitizeString`:
`[\x00-\x08\x0B\x0C\x0E-\x1F\x7F]` (tab `\x09`, LF `\x0A` and CR `\x0D`
are not in the character class). -/
def isRemovedControl (c : Char) : Bool :=
  c.toNat ≤ 0x08 || c.toNat = 0x0b || c.toNat = 0x0c ||
  (0x0e ≤ c.toNat && c.toNat ≤ 0x1f) || c.toNat = 0x7f

/-- A global single-character replacement, `s.replace(/c/g, rep)`. -/
def replaceAll (c : Char) (rep : List Char) (l : List Char) : List Char :=
  l.flatMap (fun x => if x = c then rep else [x])

/-- The HTML-entity escaping passes of `sanitizeString`, applied in the
source order: `&`, `<`, `>`, `"`, then the apostrophe. -/
def escapeHtml (l : List Char) : List Char :=
  replaceAll '\'' "&#x27;".data
    (replaceAll '"' "&quot;".data
      (replaceAll '>' "&gt;".data
        (replaceAll '<' "&lt;".data
          (replaceAll '&' "&amp;".data l))))

/-- `sanitizeString` from `src/validation.ts`: on a string, delete the
banned control characters, escape HTML entities, trim, cut to
`maxLength` (the source default is `LIMITS.MAX_STRING_LENGTH = 500`),
and turn the empty result into `null`; on a non-string, `null`. -/
def sanitizeString (input : JsValue) (maxLength : Nat) : Option String :=
  match input with
  | .str s =>
    if (jsTrim (escapeHtml (s.data.filter (fun c => !isRemovedControl c)))).take maxLength = []
    then none
    else some (String.mk ((jsTrim (escapeHtml (s.data.filter (fun c => !isRemovedControl c)))).take maxLength))
  | _ => none

/-- The id character class `[a-zA-Z0-9_-]` (ASCII code-point ranges, plus
underscore `0x5f` and hyphen `0x2d`). -/
def isIdChar (c : Char) : Bool :=
  (0x61 ≤ c.toNat && c.toNat ≤ 0x7a) || (0x41 ≤ c.toNat && c.toNat ≤ 0x5a) ||
  (0x30 ≤ c.toNat && c.toNat ≤ 0x39) || c.toNat = 0x5f || c.toNat = 0x2d

/-- `sanitizeId` from `src/validation.ts`: trim, cut to
`LIMITS.MAX_ID_LENGTH = 50`, then require a non-empty match of
`^[a-zA-Z0-9_-]+$`. -/
def sanitizeId (input : JsValue) : Option String :=
  match input with
  | .str s =>
    if (jsTrim s.data).take 50 ≠ [] ∧ ((jsTrim s.data).take 50).all isIdChar = true
    then some (String.mk ((jsTrim s.data).take 50))
    else none
  | _ => none

/-- `q < b` for a finite `q` against a possibly infinite bound. -/
def qLtNum (q : ℚ) (b : JsNum) : Bool :=
  match b with
  | .fin m => decide (q < m)
  | .inf => true
  | .negInf => false
  | .nan => false

/-- `q > b` for a finite `q` against a possibly infinite bound. -/
def qGtNum (q : ℚ) (b : JsNum) : Bool :=
  match b with
  | .fin m => decide (m < q)
  | .inf => false
  | .negInf => true
  | .nan => false

/-- `validateNumber` from `src/validation.ts`: a finite number within
`[min, max]`, otherwise `null` (non-numbers, NaN and the infinities are
all rejected before the range check). -/
def validateNumber (input : JsValue) (min max : JsNum) : Option ℚ :=
  match input with
  | .num (.fin q) => if qLtNum q min || qGtNum q max then none else some q
  | _ => none

/-- Computer category tag, `'tech' | 'magic' | 'hybrid'`. -/
inductive ComputerType where
  | tech | magic | hybrid
deriving DecidableEq, Repr

/-- Access-point category, `'physical' | 'remote' | 'magical'`. -/
inductive AccessPointType where
  | physical | remote | magical
deriving DecidableEq, Repr

/-- Node state, `'locked' | 'active' | 'breached' | 'alarmed'`. -/
inductive NodeState where
  | locked | active | breached | alarmed
deriving DecidableEq, Repr

/-- `VALID_COMPUTER_TYPES.has(x)`: membership succeeds exactly on the three
recognized strings. -/
def parseComputerType (v : JsValue) : Option ComputerType :=
  match v with
  | .str "tech" => some .tech
  | .str "magic" => some .magic
  | .str "hybrid" => some .hybrid
  | _ => none

/-- `VALID_ACCESS_POINT_TYPES.has(x)`. -/
def parseAccessPointType (v : JsValue) : Option AccessPointType :=
  match v with
  | .str "physical" => some .physical
  | .str "remote" => some .remote
  | .str "magical" => some .magical
  | _ => none

/-- `VALID_NODE_STATES.has(x)`. -/
def parseNodeState (v : JsValue) : Option NodeState :=
  match v with
  | .str "locked" => some .locked
  | .str "active" => some .active
  | .str "breached" => some .breached
  | .str "alarmed" => some .alarmed
  | _ => none

/-- Sanitized 2-D position. -/
structure Position where
  x : ℚ
  y : ℚ
deriving DecidableEq, Repr

/-- Sanitized access point. -/
structure AccessPoint where
  id : String
  name : String
  category : AccessPointType
  state : NodeState
  position : Position
  connectedTo : List String
deriving DecidableEq, Repr

/-- Sanitized computer. The `category` field carries the source's `type`
field. -/
structure Computer where
  id : String
  name : String
  level : ℚ
  category : ComputerType
  description : Option String
  accessPoints : List AccessPoint
deriving DecidableEq, Repr

/-- `validatePosition` from `src/validation.ts`: both axes must be finite
numbers within `±LIMITS.MAX_POSITION_VALUE = ±10000`. -/
def validatePosition (input : JsValue) : Option Position :=
  if !input.passesObjectCheck then none
  else
    match validateNumber (input.getProp "x") (.fin (-10000)) (.fin 10000),
          validateNumber (input.getProp "y") (.fin (-10000)) (.fin 10000) with
    | some x, some y => some ⟨x, y⟩
    | _, _ => none

/-- One step of the `connectedTo` loop: sanitize every entry, failing the
whole access point when any entry fails. -/
def sanitizeConnections (l : List JsValue) : Option (List String) :=
  match l with
  | [] => some []
  | c :: rest =>
    match sanitizeId c with
    | none => none
    | some s =>
      match sanitizeConnections rest with
      | none => none
      | some ss => some (s :: ss)

/-- `validateAccessPoint` from `src/validation.ts`. -/
def validateAccessPoint (input : JsValue) : Option AccessPoint :=
  if !input.passesObjectCheck then none
  else
    match sanitizeId (input.getProp "id") with
    | none => none
    | some id =>
      match sanitizeString (input.getProp "name") 100 with
      | none => none
      | some name =>
        match parseAccessPointType (input.getProp "type") with
        | none => none
        | some category =>
          match parseNodeState (input.getProp "state") with
          | none => none
          | some state =>
            match validatePosition (input.getProp "position") with
            | none => none
            | some position =>
              match input.getProp "connectedTo" with
              | .arr conns =>
                if conns.length > 10 then none
                else
                  match sanitizeConnections conns with
                  | none => none
                  | some connectedTo =>
                    some ⟨id, name, category, state, position, connectedTo⟩
              | _ => none

/-- The indexed access-point loop of `validateComputer`: on the first
failing element, return the error
`Invalid access point at index i`; otherwise collect the sanitized
points in order. -/
def validateAPList (i : Nat) (l : List JsValue) : VResult (List AccessPoint) :=
  match l with
  | [] => .ok []
  | a :: rest =>
    match validateAccessPoint a with
    | none => .err ("Invalid access point at index " ++ toString i)
    | some v =>
      match validateAPList (i + 1) rest with
      | .ok vs => .ok (v :: vs)
      | .err e => .err e

/-- `validateComputer` from `src/validation.ts`, checks in source order:
object shape, id, name, level within `[-1, 25]`, category tag, optional
description (a failing description is silently dropped, never an error),
`accessPoints` an array of length at most `LIMITS.MAX_ACCESS_POINTS = 20`,
then each access point in order. -/
def validateComputer (input : JsValue) : VResult Computer :=
  if !input.passesObjectCheck then .err "Invalid computer object"
  else
    match sanitizeId (input.getProp "id") with
    | none => .err "Invalid or missing computer ID"
    | some id =>
      match sanitizeString (input.getProp "name") 100 with
      | none => .err "Invalid or missing computer name"
      | some name =>
        match validateNumber (input.getProp "level") (.fin (-1)) (.fin 25) with
        | none => .err "Level must be between -1 and 25"
        | some level =>
          match parseComputerType (input.getProp "type") with
          | none => .err "Invalid computer type"
          | some category =>
            let description :=
              match input.getProp "description" with
              | .undefined => none
              | .jnull => none
              | d => sanitizeString d 1000
            match input.getProp "accessPoints" with
            | .arr aps =>
              if aps.length > 20 then .err "Too many access points (max 20)"
              else
                match validateAPList 0 aps with
                | .err e => .err e
                | .ok accessPoints =>
                  .ok ⟨id, name, level, category, description, accessPoints⟩
            | _ => .err "accessPoints must be an array"

/-- `validateNodeStatePayload` from `src/validation.ts`. -/
def validateNodeStatePayload (input : JsValue) : VResult (String × NodeState) :=
  if !input.passesObjectCheck then .err "Invalid node-state payload"
  else
    match sanitizeId (input.getProp "nodeId") with
    | none => .err "Invalid node ID"
    | some nodeId =>
      match parseNodeState (input.getProp "state") with
      | none => .err "Invalid node state"
      | some state => .ok (nodeId, state)

/-- `validateFocusPayload` from `src/validation.ts`: `null` unfocuses;
otherwise the node id need only survive `sanitizeId` — no check against
the current computer is made. -/
def validateFocusPayload (input : JsValue) : VResult (Option String) :=
  if !input.passesObjectCheck then .err "Invalid focus payload"
  else if (input.getProp "nodeId").isNull then .ok none
  else
    match sanitizeId (input.getProp "nodeId") with
    | none => .err "Invalid node ID"
    | some nodeId => .ok (some nodeId)

/-- `validateIntensityPayload` from `src/validation.ts`: the `value` field
must be a finite number in `[LIMITS.MIN_INTENSITY, LIMITS.MAX_INTENSITY]
= [0, 1]`. -/
def validateIntensityPayload (input : JsValue) : VResult ℚ :=
  if !input.passesObjectCheck then .err "Invalid intensity payload"
  else
    match validateNumber (input.getProp "value") (.fin 0) (.fin 1) with
    | none => .err "Intensity must be between 0 and 1"
    | some value => .ok value

/-- The recognized message types, in the source's `Set` literal order. -/
def validTypes : List String :=
  ["effect", "node-state", "focus", "intensity",
   "computer", "clear-effects", "ping", "init", "pong"]

/-- `validateMessageType` from `src/validation.ts`: return the input string
when it is a recognized type, `null` otherwise. -/
def validateMessageType (input : JsValue) : Option String :=
  match input with
  | .str s => if validTypes.contains s then some s else none
  | _ => none

/-- The `effectType` half of `validateEffectPayload`, run on the payload as
it stands after the `nodeId` half (whose write, if any, has already
happened). On success the payload itself (possibly further mutated) is
the returned value. -/
def validateEffectPayloadStep2 (payload : JsValue) : VResult JsValue × JsValue :=
  if (payload.getProp "effectType").isUndefined then (.ok payload, payload)
  else
    match sanitizeString (payload.getProp "effectType") 50 with
    | none => (.err "Invalid effect type", payload)
    | some effectType =>
      (.ok (payload.setProp "effectType" (.str effectType)),
       payload.setProp "effectType" (.str effectType))

/-- `validateEffectPayload` from `src/validation.ts`. The source writes the
sanitized `nodeId` and `effectType` back into the payload object it was
given (`payload.nodeId = nodeId`; `payload.effectType = effectType`) and
returns that same object as the valid value; the embedding therefore
returns, next to the result, the payload object's value after the call.
A `nodeId` write persists even when the later `effectType` check fails. -/
def validateEffectPayload (input : JsValue) : VResult JsValue × JsValue :=
  if !input.passesObjectCheck then (.err "Invalid effect payload", input)
  else if (input.getProp "nodeId").isUndefined then validateEffectPayloadStep2 input
  else
    match sanitizeId (input.getProp "nodeId") with
    | none => (.err "Invalid effect nodeId", input)
    | some nodeId => validateEffectPayloadStep2 (input.setProp "nodeId" (.str nodeId))

/-- Worker environment (`Env` in `src/index.ts`): the optional origin
allow-list and the optional controller shared secret. -/
structure Env where
  allowedOrigins : Option String
  gmSecret : Option String

/-- The parts of a `/ws/{roomId}` upgrade request the admission layer
reads: the captured session id, `url.searchParams.get('role')`,
`request.headers.get('X-GM-Secret')` and
`url.searchParams.get('secret')`. -/
structure WsRequest where
  sessionId : String
  roleParam : Option String
  headerSecret : Option String
  querySecret : Option String

/-- Outcome of the `/ws` route of `fetch` in `src/index.ts`: either an
early JSON rejection (status and machine-readable code), before any
durable-object stub is resolved, or a handoff of the request to the
session coordinator with the role the admission layer itself decided. -/
inductive AdmissionOutcome where
  | reject : Nat → String → AdmissionOutcome
  | forward : String → String → AdmissionOutcome
deriving DecidableEq, Repr

/-- JavaScript truthiness of a `string | null | undefined` value: present
and non-empty. -/
def strTruthy (v : Option String) : Bool :=
  match v with
  | none => false
  | some s => s ≠ ""

/-- `a || b` on `string | null` values, as in
`request.headers.get('X-GM-Secret') || url.searchParams.get('secret')`. -/
def strOrElse (a b : Option String) : Option String :=
  if strTruthy a then a else b

/-- The `/ws/:sessionId` route of `fetch` in `src/index.ts`: role defaults
to `player`; a request for `gm` first passes the `GM_SECRET` check when
one is configured (`if (env.GM_SECRET)`), returning a 401 `UNAUTHORIZED`
JSON body on mismatch before the durable object is touched; the request
forwarded to the coordinator carries the role the worker decided
(`doUrl.searchParams.set('role', role)` overwrites whatever the client
sent). -/
def handleWs (env : Env) (req : WsRequest) : AdmissionOutcome :=
  if req.roleParam = some "gm" then
    if strTruthy env.gmSecret then
      if strOrElse req.headerSecret req.querySecret ≠ env.gmSecret then
        .reject 401 "UNAUTHORIZED"
      else .forward req.sessionId "gm"
    else .forward req.sessionId "gm"
  else .forward req.sessionId "player"

/-- Role a connection is admitted with: `gm` maps to the controller,
`player` to an observer. -/
inductive Role where
  | gm | player
deriving DecidableEq, Repr

/-- Modelled from the spec: the authoritative per-room state kept by the
coordinator (`src/HackingSession.ts` is not among the provided sources) —
an optional computer, the focused-node pointer and the ambient
intensity. -/
structure RoomState where
  computer : Option Computer
  focusedNodeId : Option String
  ambientIntensity : ℚ
deriving DecidableEq, Repr

/-- Modelled from the spec: what one dispatch step produces — the new room
state, the frames fanned out to the other connections, and the frames
sent back to the sender alone (the `pong` answer to a `ping`). -/
structure DispatchResult where
  state : RoomState
  broadcast : List (String × JsValue)
  reply : List (String × JsValue)

/-- A recognized type is mutating when it is anything other than
`ping`/`pong`. -/
def mutatingType (t : String) : Bool :=
  validTypes.contains t && t ≠ "ping" && t ≠ "pong"

/-- Modelled from the spec: applying a `node-state` mutation — set the
state of the named access point, leaving every other node alone. -/
def applyNodeState (c : Computer) (nodeId : String) (s : NodeState) : Computer :=
  { c with accessPoints :=
      c.accessPoints.map (fun ap => if ap.id = nodeId then { ap with state := s } else ap) }

/-- Modelled from the spec: the coordinator's message dispatch
(`src/HackingSession.ts` is not among the provided sources; this follows
spec section 4.3 step by step). An unrecognized type is discarded
silently; `ping` is answered with `pong` to the sender only; `pong` is
discarded; a mutating message from an observer is dropped without being
applied or broadcast; otherwise the matching validator runs, a rejection
is dropped, a persistable acceptance mutates the state, and every
acceptance is broadcast. -/
def handleMessage (role : Role) (st : RoomState) (msgType payload : JsValue) :
    DispatchResult :=
  match validateMessageType msgType with
  | none => ⟨st, [], []⟩
  | some t =>
    if t = "ping" then ⟨st, [], [("pong", .jnull)]⟩
    else if t = "pong" then ⟨st, [], []⟩
    else if role = .player then ⟨st, [], []⟩
    else if t = "computer" then
      match validateComputer payload with
      | .err _ => ⟨st, [], []⟩
      | .ok c => ⟨{ st with computer := some c }, [("computer", payload)], []⟩
    else if t = "node-state" then
      match validateNodeStatePayload payload with
      | .err _ => ⟨st, [], []⟩
      | .ok (nodeId, s) =>
        ⟨{ st with computer := st.computer.map (fun c => applyNodeState c nodeId s) },
         [("node-state", payload)], []⟩
    else if t = "focus" then
      match validateFocusPayload payload with
      | .err _ => ⟨st, [], []⟩
      | .ok nodeId => ⟨{ st with focusedNodeId := nodeId }, [("focus", payload)], []⟩
    else if t = "intensity" then
      match validateIntensityPayload payload with
      | .err _ => ⟨st, [], []⟩
      | .ok v => ⟨{ st with ambientIntensity := v }, [("intensity", payload)], []⟩
    else if t = "effect" then
      match validateEffectPayload payload with
      | (.err _, _) => ⟨st, [], []⟩
      | (.ok v, _) => ⟨st, [("effect", v)], []⟩
    else if t = "clear-effects" then ⟨st, [("clear-effects", .jnull)], []⟩
    else ⟨st, [], []⟩

/-! ## Helper lemmas about the sanitizers -/

/-- Every character of a global replacement's output comes from the
replacement text or is a surviving input character different from the
replaced one. -/
theorem mem_replaceAll {x c : Char} {rep l : List Char}
    (h : x ∈ replaceAll c rep l) : x ∈ rep ∨ (x ∈ l ∧ x ≠ c) := by
  unfold replaceAll at h
  rcases List.mem_flatMap.mp h with ⟨a, ha, hx⟩
  by_cases hac : a = c
  · subst hac
    simp only [if_pos rfl] at hx
    exact Or.inl hx
  · simp only [if_neg hac, List.mem_singleton] at hx
    subst hx
    exact Or.inr ⟨ha, hac⟩

/-- The characters the five entity replacements can introduce. -/
def escapeOutChars : List Char :=
  ['&', 'a', 'm', 'p', ';', 'l', 't', 'g', 'q', 'u', 'o', '#', 'x', '2', '7']

/-- Every character of the escaped text either was introduced by a
replacement or is an input character that is none of the five escaped
ones. -/
theorem mem_escapeHtml {x : Char} {l : List Char} (h : x ∈ escapeHtml l) :
    x ∈ escapeOutChars ∨
      (x ∈ l ∧ x ≠ '&' ∧ x ≠ '<' ∧ x ≠ '>' ∧ x ≠ '"' ∧ x ≠ '\'') := by
  unfold escapeHtml at h
  have sub1 : ∀ a ∈ "&#x27;".data, a ∈ escapeOutChars := by decide
  have sub2 : ∀ a ∈ "&quot;".data, a ∈ escapeOutChars := by decide
  have sub3 : ∀ a ∈ "&gt;".data, a ∈ escapeOutChars := by decide
  have sub4 : ∀ a ∈ "&lt;".data, a ∈ escapeOutChars := by decide
  have sub5 : ∀ a ∈ "&amp;".data, a ∈ escapeOutChars := by decide
  have h1 := mem_replaceAll h
  rcases h1 with h1 | ⟨h1, hne1⟩
  · exact Or.inl (sub1 x h1)
  have h2 := mem_replaceAll h1
  rcases h2 with h2 | ⟨h2, hne2⟩
  · exact Or.inl (sub2 x h2)
  have h3 := mem_replaceAll h2
  rcases h3 with h3 | ⟨h3, hne3⟩
  · exact Or.inl (sub3 x h3)
  have h4 := mem_replaceAll h3
  rcases h4 with h4 | ⟨h4, hne4⟩
  · exact Or.inl (sub4 x h4)
  have h5 := mem_replaceAll h4
  rcases h5 with h5 | ⟨h5, hne5⟩
  · exact Or.inl (sub5 x h5)
  exact Or.inr ⟨h5, hne5, hne4, hne3, hne2, hne1⟩

/-- Trimming only removes characters. -/
theorem mem_jsTrim {x : Char} {l : List Char} (h : x ∈ jsTrim l) : x ∈ l := by
  unfold jsTrim at h
  rw [List.mem_reverse] at h
  have h1 := (List.dropWhile_sublist (l := (l.dropWhile isJsWs).reverse) isJsWs).subset h
  rw [List.mem_reverse] at h1
  exact (List.dropWhile_sublist isJsWs).subset h1

/-- A list none of whose characters is JS whitespace trims to itself. -/
theorem jsTrim_eq_self {l : List Char} (h : ∀ c ∈ l, isJsWs c = false) :
    jsTrim l = l := by
  unfold jsTrim
  have hdrop : ∀ (m : List Char), (∀ c ∈ m, isJsWs c = false) → m.dropWhile isJsWs = m := by
    intro m hm
    cases m with
    | nil => rfl
    | cons a as =>
      rw [List.dropWhile_cons, hm a (List.mem_cons_self a as)]
      simp
  rw [hdrop l h, hdrop l.reverse (fun c hc => h c (List.mem_reverse.mp hc)), List.reverse_reverse]

/-- Id characters are never JS whitespace. -/
theorem idChar_not_ws {c : Char} (h : isIdChar c = true) : isJsWs c = false := by
  unfold isIdChar at h
  unfold isJsWs
  simp only [Bool.or_eq_true, Bool.and_eq_true, decide_eq_true_eq] at h
  simp only [Bool.or_eq_false_iff, Bool.and_eq_false_iff, decide_eq_false_iff_not]
  omega

/-- Soundness of `sanitizeId`: an accepted output is a non-empty string of
id characters of length at most `LIMITS.MAX_ID_LENGTH = 50`. -/
theorem sanitizeId_sound {input : JsValue} {s : String}
    (h : sanitizeId input = some s) :
    s.data ≠ [] ∧ s.data.all isIdChar = true ∧ s.data.length ≤ 50 := by
  cases input with
  | str t =>
    simp only [sanitizeId] at h
    split at h
    · obtain rfl : String.mk ((jsTrim t.data).take 50) = s := Option.some.inj h
      rename_i hcond
      exact ⟨hcond.1, hcond.2, List.length_take_le 50 (jsTrim t.data)⟩
    · exact absurd h (by simp)
  | num n => exact absurd h (by simp [sanitizeId])
  | boolean b => exact absurd h (by simp [sanitizeId])
  | jnull => exact absurd h (by simp [sanitizeId])
  | undefined => exact absurd h (by simp [sanitizeId])
  | arr l => exact absurd h (by simp [sanitizeId])
  | obj fields => exact absurd h (by simp [sanitizeId])

/-- C10: `sanitizeId` is idempotent on its accepted outputs: every accepted
output is a non-empty string of at most 50 characters drawn from
`[a-zA-Z0-9_-]`, and running `sanitizeId` on that output returns it
unchanged. -/
theorem sanitizeId_idempotent :
    ∀ (input : JsValue) (s : String), sanitizeId input = some s →
      s.data ≠ [] ∧ s.data.all isIdChar = true ∧ s.data.length ≤ 50 ∧
      sanitizeId (.str s) = some s := by
  intro input s h
  obtain ⟨hne, hall, hlen⟩ := sanitizeId_sound h
  refine ⟨hne, hall, hlen, ?_⟩
  have htrim : jsTrim s.data = s.data :=
    jsTrim_eq_self (fun c hc => idChar_not_ws (List.all_eq_true.mp hall c hc))
  have htake : s.data.take 50 = s.data := List.take_of_length_le hlen
  simp only [sanitizeId, htrim, htake]
  rw [if_pos ⟨hne, hall⟩]

/-- Witness for C10 at the concrete input `" node-1 "`. -/
theorem sanitizeId_idempotent_witness :
    ("node-1" : String).data ≠ [] ∧
    ("node-1" : String).data.all isIdChar = true ∧
    ("node-1" : String).data.length ≤ 50 ∧
    sanitizeId (.str "node-1") = some "node-1" :=
  sanitizeId_idempotent (.str " node-1 ") "node-1" (by decide)

/-- C9 (amended): an accepted `sanitizeString` output is non-empty, is at
most `maxLength` characters long, contains no raw `<`, `>`, `"` or
apostrophe, and any control character it contains is tab (9), newline
(10) or carriage return (13) — the removal regex of the source leaves
`\x0D` alone, so carriage returns survive alongside tab and newline. -/
theorem sanitizeString_output_clean :
    ∀ (input : JsValue) (maxLength : Nat) (s : String),
      sanitizeString input maxLength = some s →
      s.data ≠ [] ∧ s.data.length ≤ maxLength ∧
      ∀ c ∈ s.data, c ≠ '<' ∧ c ≠ '>' ∧ c ≠ '"' ∧ c ≠ '\'' ∧
        ((c.toNat < 32 ∨ c.toNat = 127) →
          (c.toNat = 9 ∨ c.toNat = 10 ∨ c.toNat = 13)) := by
  intro input maxLength s h
  cases input with
  | str t =>
    simp only [sanitizeString] at h
    split at h
    · exact absurd h (by simp)
    · obtain rfl :
        String.mk ((jsTrim (escapeHtml (t.data.filter (fun c => !isRemovedControl c)))).take maxLength) = s :=
        Option.some.inj h
      rename_i hcond
      refine ⟨hcond, List.length_take_le maxLength _, ?_⟩
      intro c hc
      have hmem := mem_jsTrim (List.take_subset maxLength _ hc)
      rcases mem_escapeHtml hmem with hout | ⟨hin, _, hlt, hgt, hq, hap⟩
      · fin_cases hout <;> decide
      · have hctrl : isRemovedControl c = false := by
          have := List.of_mem_filter hin
          rwa [Bool.not_eq_true'] at this
        refine ⟨hlt, hgt, hq, hap, ?_⟩
        unfold isRemovedControl at hctrl
        simp only [Bool.or_eq_false_iff, Bool.and_eq_false_iff,
          decide_eq_false_iff_not] at hctrl
        omega
  | num n => exact absurd h (by simp [sanitizeString])
  | boolean b => exact absurd h (by simp [sanitizeString])
  | jnull => exact absurd h (by simp [sanitizeString])
  | undefined => exact absurd h (by simp [sanitizeString])
  | arr l => exact absurd h (by simp [sanitizeString])
  | obj fields => exact absurd h (by simp [sanitizeString])

/-- Counterexample to C9 as stated: the carriage return `\x0D` is a control
character that is neither tab nor newline, yet `sanitizeString` keeps it
in its output. -/
theorem sanitizeString_keeps_cr :
    sanitizeString (.str "a\x0db") 500 = some "a\x0db" ∧
    '\x0d'.toNat < 32 ∧ '\x0d' ≠ '\t' ∧ '\x0d' ≠ '\n' ∧
    '\x0d' ∈ ("a\x0db" : String).data := by
  refine ⟨by decide, by decide, by decide, by decide, by decide⟩

/-- Witness for C9 (amended) at the concrete input `"  hello  "`. -/
theorem sanitizeString_output_clean_witness :
    ("hello" : String).data ≠ [] ∧ ("hello" : String).data.length ≤ 500 ∧
    ∀ c ∈ ("hello" : String).data, c ≠ '<' ∧ c ≠ '>' ∧ c ≠ '"' ∧ c ≠ '\'' ∧
      ((c.toNat < 32 ∨ c.toNat = 127) →
        (c.toNat = 9 ∨ c.toNat = 10 ∨ c.toNat = 13)) :=
  sanitizeString_output_clean (.str "  hello  ") 500 "hello" (by decide)

/-- Membership in the recognized-type list, spelled out. -/
theorem validTypes_contains_iff (t : String) :
    validTypes.contains t = true ↔
      (t = "init" ∨ t = "computer" ∨ t = "node-state" ∨ t = "focus" ∨
       t = "intensity" ∨ t = "effect" ∨ t = "clear-effects" ∨ t = "ping" ∨
       t = "pong") := by
  simp [validTypes, List.contains]
  tauto

/-- C8: `validateMessageType` returns its input unchanged exactly when the
input is one of the nine recognized type strings, and `null` on every
other input (unrecognized strings and non-strings alike). -/
theorem validateMessageType_characterization :
    ∀ (v : JsValue) (s : String),
      validateMessageType v = some s ↔
        (v = .str s ∧
          (s = "init" ∨ s = "computer" ∨ s = "node-state" ∨ s = "focus" ∨
           s = "intensity" ∨ s = "effect" ∨ s = "clear-effects" ∨ s = "ping" ∨
           s = "pong")) := by
  intro v s
  cases v with
  | str t =>
    simp only [validateMessageType, JsValue.str.injEq]
    by_cases hc : validTypes.contains t = true
    · rw [if_pos hc]
      simp only [Option.some.injEq]
      constructor
      · rintro rfl
        exact ⟨rfl, (validTypes_contains_iff t).mp hc⟩
      · rintro ⟨rfl, _⟩
        rfl
    · rw [if_neg hc]
      constructor
      · intro h
        exact absurd h (by simp)
      · rintro ⟨rfl, hor⟩
        exact absurd ((validTypes_contains_iff t).mpr hor) hc
  | num n => simp [validateMessageType]
  | boolean b => simp [validateMessageType]
  | jnull => simp [validateMessageType]
  | undefined => simp [validateMessageType]
  | arr l => simp [validateMessageType]
  | obj fields => simp [validateMessageType]

/-- Witness for C8 at the concrete inputs `"focus"` and `"execute"`. -/
theorem validateMessageType_characterization_witness :
    validateMessageType (.str "focus") = some "focus" ∧
    validateMessageType (.str "execute") ≠ some "execute" :=
  ⟨(validateMessageType_characterization (.str "focus") "focus").mpr
      ⟨rfl, by decide⟩,
   fun h => by
     rcases (validateMessageType_characterization (.str "execute") "execute").mp h
       with ⟨_, hor⟩
     revert hor
     decide⟩

/-- C5: `validateIntensityPayload` accepts exactly the plain objects whose
`value` field is a finite number in the closed interval `[0, 1]` (both
endpoints included); every other input — out-of-range numbers, NaN,
Infinity, non-number fields, arrays, non-objects — is rejected, and a
rejection carries an error string but no value by construction of
`VResult`. -/
theorem validateIntensityPayload_iff :
    ∀ (input : JsValue) (q : ℚ),
      validateIntensityPayload input = .ok q ↔
        ∃ fields, input = .obj fields ∧
          input.getProp "value" = .num (.fin q) ∧ 0 ≤ q ∧ q ≤ 1 := by
  intro input q
  cases input with
  | obj fields =>
    have hR : (∃ fs, JsValue.obj fields = JsValue.obj fs ∧
        (JsValue.obj fields).getProp "value" = .num (.fin q) ∧ 0 ≤ q ∧ q ≤ 1) ↔
        ((JsValue.obj fields).getProp "value" = .num (.fin q) ∧ 0 ≤ q ∧ q ≤ 1) := by
      constructor
      · rintro ⟨fs, -, h⟩
        exact h
      · intro h
        exact ⟨fields, rfl, h⟩
    rw [hR]
    rcases hg : (JsValue.obj fields).getProp "value" with t | n | b | - | - | l | fs
    case num =>
      rcases n with q' | - | - | -
      case fin =>
        simp only [validateIntensityPayload, JsValue.passesObjectCheck, Bool.not_true,
          Bool.false_eq_true, if_false, hg, validateNumber, qLtNum, qGtNum,
          JsValue.num.injEq, JsNum.fin.injEq]
        by_cases hcond : (decide (q' < 0) || decide (1 < q')) = true
        · rw [if_pos hcond]
          simp only [Bool.or_eq_true, decide_eq_true_eq] at hcond
          simp only [reduceCtorEq, false_iff, not_and]
          rintro rfl
          rintro h0 h1
          rcases hcond with hc | hc
          · exact absurd h0 (not_le.mpr hc)
          · exact absurd h1 (not_le.mpr hc)
        · rw [if_neg hcond]
          simp only [Bool.or_eq_true, decide_eq_true_eq, not_or, not_lt] at hcond
          simp only [VResult.ok.injEq]
          constructor
          · rintro rfl
            exact ⟨rfl, hcond.1, hcond.2⟩
          · rintro ⟨rfl, -, -⟩
            rfl
      all_goals
        simp only [validateIntensityPayload, JsValue.passesObjectCheck, Bool.not_true,
          Bool.false_eq_true, if_false, hg, validateNumber]
        simp
    all_goals
      simp only [validateIntensityPayload, JsValue.passesObjectCheck, Bool.not_true,
        Bool.false_eq_true, if_false, hg, validateNumber]
      simp
  | str t => simp [validateIntensityPayload, JsValue.passesObjectCheck]
  | num n => simp [validateIntensityPayload, JsValue.passesObjectCheck]
  | boolean b => simp [validateIntensityPayload, JsValue.passesObjectCheck]
  | jnull => simp [validateIntensityPayload, JsValue.passesObjectCheck]
  | undefined => simp [validateIntensityPayload, JsValue.passesObjectCheck]
  | arr l =>
    simp [validateIntensityPayload, JsValue.passesObjectCheck, validateNumber,
      JsValue.getProp]

/-- Witness for C5: the endpoint value 1 is accepted. -/
theorem validateIntensityPayload_iff_witness :
    validateIntensityPayload (.obj [("value", .num (.fin 1))]) = .ok 1 :=
  (validateIntensityPayload_iff (.obj [("value", .num (.fin 1))]) 1).mpr
    ⟨[("value", .num (.fin 1))], rfl, rfl, zero_le_one, le_refl 1⟩

/-- The access-point loop succeeds on a list all of whose elements
validate, returning one sanitized point per element. -/
theorem validateAPList_ok_of_all {l : List JsValue}
    (h : ∀ a ∈ l, (validateAccessPoint a).isSome = true) :
    ∀ i, ∃ vs, validateAPList i l = .ok vs ∧ vs.length = l.length := by
  induction l with
  | nil => exact fun i => ⟨[], rfl, rfl⟩
  | cons a rest ih =>
    intro i
    obtain ⟨v, hv⟩ := Option.isSome_iff_exists.mp (h a (List.mem_cons_self a rest))
    obtain ⟨vs, hvs, hlen⟩ := ih (fun b hb => h b (List.mem_cons_of_mem a hb)) (i + 1)
    exact ⟨v :: vs, by simp [validateAPList, hv, hvs], by simp [hlen]⟩

/-- C4: an `accessPoints` array of length exactly `LIMITS.MAX_ACCESS_POINTS
= 20` whose fields are otherwise valid (id, name, level, type and every
access point pass their checks) is accepted, with all 20 points kept;
an `accessPoints` array of length above 20 always yields an invalid
result carrying an error string — and an error, by construction of
`VResult`, carries no sanitized value at all. -/
theorem validateComputer_boundary :
    (∀ (input : JsValue) (l : List JsValue),
       input.passesObjectCheck = true →
       (sanitizeId (input.getProp "id")).isSome = true →
       (sanitizeString (input.getProp "name") 100).isSome = true →
       (validateNumber (input.getProp "level") (.fin (-1)) (.fin 25)).isSome = true →
       (parseComputerType (input.getProp "type")).isSome = true →
       input.getProp "accessPoints" = .arr l →
       l.length = 20 →
       (∀ a ∈ l, (validateAccessPoint a).isSome = true) →
       ∃ c, validateComputer input = .ok c ∧ c.accessPoints.length = 20) ∧
    (∀ (input : JsValue) (l : List JsValue),
       input.passesObjectCheck = true →
       input.getProp "accessPoints" = .arr l →
       20 < l.length →
       ∃ e, validateComputer input = .err e) := by
  constructor
  · intro input l hpoc hid hname hlevel htype haps hlen hall
    obtain ⟨id, hid⟩ := Option.isSome_iff_exists.mp hid
    obtain ⟨name, hname⟩ := Option.isSome_iff_exists.mp hname
    obtain ⟨level, hlevel⟩ := Option.isSome_iff_exists.mp hlevel
    obtain ⟨ct, htype⟩ := Option.isSome_iff_exists.mp htype
    obtain ⟨vs, hvs, hvslen⟩ := validateAPList_ok_of_all hall 0
    simp only [validateComputer, hpoc, Bool.not_true, Bool.false_eq_true, if_false,
      hid, hname, hlevel, htype, haps]
    rw [if_neg (by omega), hvs]
    exact ⟨_, rfl, by rw [hvslen, hlen]⟩
  · intro input l hpoc haps hlen
    simp only [validateComputer, hpoc, Bool.not_true, Bool.false_eq_true, if_false]
    rcases hid : sanitizeId (input.getProp "id") with - | id
    · exact ⟨_, rfl⟩
    rcases hname : sanitizeString (input.getProp "name") 100 with - | name
    · exact ⟨_, rfl⟩
    rcases hlevel : validateNumber (input.getProp "level") (.fin (-1)) (.fin 25) with - | level
    · exact ⟨_, rfl⟩
    rcases htype : parseComputerType (input.getProp "type") with - | ct
    · exact ⟨_, rfl⟩
    refine ⟨"Too many access points (max 20)", ?_⟩
    simp [haps, hlen]

/-- A well-formed access-point payload used by the C4 witness. -/
def sampleAccessPointJs : JsValue :=
  .obj [("id", .str "ap-1"), ("name", .str "Main Access"), ("type", .str "physical"),
        ("state", .str "locked"),
        ("position", .obj [("x", .num (.fin 100)), ("y", .num (.fin 200))]),
        ("connectedTo", .arr [.str "ap-2"])]

/-- A computer payload whose access-point list is the given one, all other
fields valid, used by the C4 witness. -/
def computerJsWith (aps : List JsValue) : JsValue :=
  .obj [("id", .str "comp-1"), ("name", .str "Test Computer"),
        ("level", .num (.fin 5)), ("type", .str "tech"),
        ("accessPoints", .arr aps)]

/-- Witness for C4: 20 access points are accepted, 21 are rejected. -/
theorem validateComputer_boundary_witness :
    (∃ c, validateComputer (computerJsWith (List.replicate 20 sampleAccessPointJs)) = .ok c ∧
       c.accessPoints.length = 20) ∧
    (∃ e, validateComputer (computerJsWith (List.replicate 21 sampleAccessPointJs)) = .err e) :=
  ⟨validateComputer_boundary.1 (computerJsWith (List.replicate 20 sampleAccessPointJs))
      (List.replicate 20 sampleAccessPointJs) rfl rfl rfl rfl rfl rfl
      (by simp)
      (fun a ha => by rw [List.eq_of_mem_replicate ha]; rfl),
   validateComputer_boundary.2 (computerJsWith (List.replicate 21 sampleAccessPointJs))
      (List.replicate 21 sampleAccessPointJs) rfl rfl (by simp)⟩

/-- Looking up a key other than the assigned one is unaffected by
`setField`. -/
theorem lookup_setField_ne {fields : List (String × JsValue)} {k k' : String}
    {val : JsValue} (h : k' ≠ k) :
    (JsValue.setField fields k val).lookup k' = fields.lookup k' := by
  induction fields with
  | nil =>
    have hb : (k' == k) = false := beq_eq_false_iff_ne.mpr h
    simp [JsValue.setField, List.lookup, hb]
  | cons a rest ih =>
    obtain ⟨ak, av⟩ := a
    by_cases hak : ak = k
    · subst hak
      have hb : (k' == ak) = false := beq_eq_false_iff_ne.mpr h
      simp [JsValue.setField, List.lookup, hb]
    · simp [JsValue.setField, hak, List.lookup, ih]

/-- Reading a key other than the assigned one is unaffected by
`setProp`. -/
theorem getProp_setProp_ne {v : JsValue} {k k' : String} {val : JsValue}
    (h : k' ≠ k) : (v.setProp k val).getProp k' = v.getProp k' := by
  cases v <;> simp [JsValue.setProp, JsValue.getProp]
  rw [lookup_setField_ne h]

/-- The `effectType` half of the effect validator returns its (possibly
mutated) payload as the valid value and touches no key other than
`effectType`. -/
theorem validateEffectPayloadStep2_frame {p post : JsValue} {r : VResult JsValue}
    (h : validateEffectPayloadStep2 p = (r, post)) :
    (∀ v, r = .ok v → v = post) ∧
    (∀ k, k ≠ "effectType" → post.getProp k = p.getProp k) := by
  unfold validateEffectPayloadStep2 at h
  by_cases hu : (p.getProp "effectType").isUndefined = true
  · rw [if_pos hu] at h
    injection h with h1 h2
    subst h1
    subst h2
    exact ⟨fun v hv => (VResult.ok.inj hv).symm, fun k _ => rfl⟩
  · rw [if_neg hu] at h
    rcases hs : sanitizeString (p.getProp "effectType") 50 with - | et <;>
      rw [hs] at h
    · injection h with h1 h2
      subst h1
      subst h2
      exact ⟨fun v hv => (nomatch hv), fun k _ => rfl⟩
    · injection h with h1 h2
      subst h1
      subst h2
      exact ⟨fun v hv => (VResult.ok.inj hv).symm,
             fun k hk => getProp_setProp_ne hk⟩

/-- C7 (amended): `validateEffectPayload` returns, as its valid value, the
very payload object it was given after mutating it in place (writing the
sanitized `nodeId` and `effectType` back into it — a `nodeId` write even
persists when the later `effectType` check fails), and its writes touch
no key other than `nodeId` and `effectType`. The other four validators
(`validateComputer`, `validateNodeStatePayload`, `validateFocusPayload`,
`validateIntensityPayload`) contain no assignment to their payload and
are embedded as pure functions returning newly constructed values. -/
theorem validateEffectPayload_frame :
    ∀ (input : JsValue) (r : VResult JsValue) (post : JsValue),
      validateEffectPayload input = (r, post) →
      (∀ v, r = .ok v → v = post) ∧
      (∀ k, k ≠ "nodeId" → k ≠ "effectType" →
        post.getProp k = input.getProp k) := by
  intro input r post h
  unfold validateEffectPayload at h
  by_cases hpc : (!input.passesObjectCheck) = true
  · rw [if_pos hpc] at h
    injection h with h1 h2
    subst h1
    subst h2
    exact ⟨fun v hv => (nomatch hv), fun k _ _ => rfl⟩
  · rw [if_neg hpc] at h
    by_cases hu : (input.getProp "nodeId").isUndefined = true
    · rw [if_pos hu] at h
      obtain ⟨hok, hframe⟩ := validateEffectPayloadStep2_frame h
      exact ⟨hok, fun k _ hk2 => hframe k hk2⟩
    · rw [if_neg hu] at h
      rcases hs : sanitizeId (input.getProp "nodeId") with - | nodeId <;>
        rw [hs] at h
      · injection h with h1 h2
        subst h1
        subst h2
        exact ⟨fun v hv => (nomatch hv), fun k _ _ => rfl⟩
      · obtain ⟨hok, hframe⟩ := validateEffectPayloadStep2_frame h
        refine ⟨hok, fun k hk1 hk2 => ?_⟩
        rw [hframe k hk2, getProp_setProp_ne hk1]

/-- Witness for C7 (amended) at the concrete input
`\x7bnodeId: " ap-1"\x7d`, whose `nodeId` the validator rewrites. -/
theorem validateEffectPayload_frame_witness :
    (∀ v, (VResult.ok (JsValue.obj [("nodeId", JsValue.str "ap-1")]) : VResult JsValue) = .ok v →
       v = JsValue.obj [("nodeId", JsValue.str "ap-1")]) ∧
    (∀ k, k ≠ "nodeId" → k ≠ "effectType" →
       (JsValue.obj [("nodeId", JsValue.str "ap-1")]).getProp k =
         (JsValue.obj [("nodeId", JsValue.str " ap-1")]).getProp k) :=
  validateEffectPayload_frame (.obj [("nodeId", .str " ap-1")])
    (.ok (.obj [("nodeId", .str "ap-1")])) (.obj [("nodeId", .str "ap-1")]) rfl

/-- Counterexample to C7 as stated: on the payload
`\x7bnodeId: " ap-1"\x7d` the effect validator returns the mutated payload
object itself, which differs from the object it was given — the input is
not left unchanged, and the result is not a newly constructed value. -/
theorem validateEffectPayload_mutates_input :
    validateEffectPayload (.obj [("nodeId", .str " ap-1")]) =
      (.ok (.obj [("nodeId", .str "ap-1")]), .obj [("nodeId", .str "ap-1")]) ∧
    JsValue.obj [("nodeId", .str "ap-1")] ≠ JsValue.obj [("nodeId", .str " ap-1")] := by
  refine ⟨rfl, ?_⟩
  intro h
  injection h with h1
  injection h1 with h2 htl
  injection h2 with hfst hsnd
  injection hsnd with h4
  exact absurd h4 (by decide)

/-- C6 (amended): whenever the focus-validation path accepts a focus
payload, the accepted target is `null` or a merely well-formed id
(non-empty, at most 50 characters from `[a-zA-Z0-9_-]`) — well-formedness
is all the path enforces, and no membership check against
`computer.accessPoints` is performed anywhere on it. -/
theorem validateFocusPayload_wellformed :
    ∀ (p : JsValue) (v : Option String), validateFocusPayload p = .ok v →
      v = none ∨ ∃ s, v = some s ∧ s.data ≠ [] ∧
        s.data.all isIdChar = true ∧ s.data.length ≤ 50 := by
  intro p v h
  unfold validateFocusPayload at h
  by_cases hpc : (!p.passesObjectCheck) = true
  · rw [if_pos hpc] at h
    exact (nomatch h)
  · rw [if_neg hpc] at h
    by_cases hn : (p.getProp "nodeId").isNull = true
    · rw [if_pos hn] at h
      exact Or.inl (VResult.ok.inj h).symm
    · rw [if_neg hn] at h
      rcases hs : sanitizeId (p.getProp "nodeId") with - | nodeId <;> rw [hs] at h
      · exact (nomatch h)
      · obtain ⟨hne, hall, hlen⟩ := sanitizeId_sound hs
        exact Or.inr ⟨nodeId, (VResult.ok.inj h).symm, hne, hall, hlen⟩

/-- Witness for C6 (amended) at the concrete payload
`\x7bnodeId: "ghost"\x7d`. -/
theorem validateFocusPayload_wellformed_witness :
    (some "ghost" : Option String) = none ∨
      ∃ s, (some "ghost" : Option String) = some s ∧ s.data ≠ [] ∧
        s.data.all isIdChar = true ∧ s.data.length ≤ 50 :=
  validateFocusPayload_wellformed (.obj [("nodeId", .str "ghost")]) (some "ghost") rfl

/-- A one-node computer used by the C6 counterexample. -/
def c6Computer : Computer :=
  ⟨"comp-1", "Core", 5, .tech, none,
   [⟨"ap-1", "Door", .physical, .locked, ⟨0, 0⟩, []⟩]⟩

/-- Counterexample to C6 as stated: the focus payload `\x7bnodeId:
"ghost"\x7d` passes validation and, when dispatched by the controller,
sets `focusedNodeId` to `"ghost"` although no access point of the
current computer carries that id — the validation path performs no
referential check. -/
theorem focus_accepts_dangling_node :
    validateFocusPayload (.obj [("nodeId", .str "ghost")]) = .ok (some "ghost") ∧
    "ghost" ∉ c6Computer.accessPoints.map AccessPoint.id ∧
    (handleMessage .gm ⟨some c6Computer, none, 1⟩ (.str "focus")
        (.obj [("nodeId", .str "ghost")])).state.focusedNodeId = some "ghost" := by
  refine ⟨rfl, ?_, rfl⟩
  simp [c6Computer]

/-- C1: with no configured secret every `role=gm` admission succeeds with
role `gm`; with a configured (non-empty) secret, a request whose supplied
secret — header `X-GM-Secret` first, else the `secret` query parameter —
is missing or differs is answered with the 401 `UNAUTHORIZED` rejection,
a branch that by construction of `AdmissionOutcome` carries no socket
handoff and never reaches the coordinator stub. -/
theorem admission_gm_secret :
    ∀ (env : Env) (req : WsRequest),
      req.roleParam = some "gm" →
      (env.gmSecret = none → handleWs env req = .forward req.sessionId "gm") ∧
      (∀ s, env.gmSecret = some s → s ≠ "" →
        strOrElse req.headerSecret req.querySecret ≠ some s →
        handleWs env req = .reject 401 "UNAUTHORIZED") := by
  intro env req hrole
  constructor
  · intro hnone
    unfold handleWs
    rw [if_pos hrole, hnone]
    simp [strTruthy]
  · intro s hs hsne hmiss
    unfold handleWs
    rw [if_pos hrole, hs]
    rw [if_pos (by simp [strTruthy, hsne])]
    rw [if_pos hmiss]

/-- Witness for C1: configured secret `"s3cret"`, no secret supplied. -/
theorem admission_gm_secret_witness :
    handleWs ⟨none, some "s3cret"⟩ ⟨"room1", some "gm", none, none⟩ =
      .reject 401 "UNAUTHORIZED" :=
  (admission_gm_secret ⟨none, some "s3cret"⟩ ⟨"room1", some "gm", none, none⟩ rfl).2
    "s3cret" rfl (by decide) (by decide)

/-- C3: whatever the coordinator receives carries the role the admission
layer decided, never the raw client value: the forwarded role is `gm`
exactly when the client asked for `gm` (any other requested value,
recognized or not, is mapped to `player`), and a forwarded `gm` under a
configured secret implies the supplied secret matched. -/
theorem admission_confirmed_role :
    ∀ (env : Env) (req : WsRequest) (sid role : String),
      handleWs env req = .forward sid role →
      sid = req.sessionId ∧ (role = "gm" ∨ role = "player") ∧
      (role = "gm" ↔ req.roleParam = some "gm") ∧
      (role = "gm" → strTruthy env.gmSecret = true →
        strOrElse req.headerSecret req.querySecret = env.gmSecret) := by
  intro env req sid role h
  unfold handleWs at h
  by_cases hrole : req.roleParam = some "gm"
  · rw [if_pos hrole] at h
    by_cases ht : strTruthy env.gmSecret = true
    · rw [if_pos ht] at h
      by_cases hm : strOrElse req.headerSecret req.querySecret ≠ env.gmSecret
      · rw [if_pos hm] at h
        exact (nomatch h)
      · rw [if_neg hm] at h
        injection h with h1 h2
        subst h1
        subst h2
        exact ⟨rfl, Or.inl rfl, ⟨fun _ => hrole, fun _ => rfl⟩,
               fun _ _ => not_not.mp hm⟩
    · rw [if_neg ht] at h
      injection h with h1 h2
      subst h1
      subst h2
      exact ⟨rfl, Or.inl rfl, ⟨fun _ => hrole, fun _ => rfl⟩,
             fun _ hT => absurd hT ht⟩
  · rw [if_neg hrole] at h
    injection h with h1 h2
    subst h1
    subst h2
    refine ⟨rfl, Or.inr rfl, ⟨fun hg => absurd hg (by decide), fun hreq => absurd hreq hrole⟩,
            fun hg _ => absurd hg (by decide)⟩

/-- Witness for C3: an unrecognized requested role is forwarded as
`player`. -/
theorem admission_confirmed_role_witness :
    "r1" = "r1" ∧ (("player" : String) = "gm" ∨ ("player" : String) = "player") ∧
    (("player" : String) = "gm" ↔ (some "hacker" : Option String) = some "gm") ∧
    (("player" : String) = "gm" → strTruthy (some "s3cret") = true →
      strOrElse none none = some "s3cret") :=
  admission_confirmed_role ⟨none, some "s3cret"⟩ ⟨"r1", some "hacker", none, none⟩
    "r1" "player" rfl

/-- C2: a mutating message (any recognized type other than `ping`/`pong`)
arriving from a connection admitted as observer leaves the room state
untouched and is broadcast to nobody. -/
theorem observer_mutating_never_applied :
    ∀ (st : RoomState) (mv payload : JsValue) (t : String),
      validateMessageType mv = some t → t ≠ "ping" → t ≠ "pong" →
      (handleMessage .player st mv payload).state = st ∧
      (handleMessage .player st mv payload).broadcast = [] := by
  intro st mv payload t hv hp hq
  simp only [handleMessage, hv]
  rw [if_neg hp, if_neg hq]
  simp

/-- Witness for C2: an observer `computer` message is dropped. -/
theorem observer_mutating_never_applied_witness :
    (handleMessage .player ⟨none, none, 1⟩ (.str "computer") (.obj [])).state =
      ⟨none, none, 1⟩ ∧
    (handleMessage .player ⟨none, none, 1⟩ (.str "computer") (.obj [])).broadcast = [] :=
  observer_mutating_never_applied ⟨none, none, 1⟩ (.str "computer") (.obj [])
    "computer" rfl (by decide) (by decide)

end Hacking
